import Mathlib

/-!
Verification of the external-sources crawl engine
(`src/app/prototypes/testin-ext-sources/server/server.py`).

The Python server is embedded shallowly: pure logic (link filtering,
budgeted follow loop, findings merge, input coercion) is translated
directly; calls into external libraries (httpx, BeautifulSoup,
urllib.parse, json, datetime) are supplied through an explicit
environment record or function parameters, so theorems quantify over
every possible behaviour of those libraries.
-/

/-- An extracted link, one item of the `_extract_links` output:
resolved absolute URL plus anchor text. -/
structure Link where
  url : String
  text : String
deriving DecidableEq, Repr

/-- An `<a href=...>` element as surfaced by the HTML parser
(`soup.find_all("a", href=True)`): its raw `href` attribute and its
stripped text content (`a.get_text(strip=True)`). -/
structure Anchor where
  href : String
  text : String
deriving DecidableEq, Repr

/-- One entry of `results["pages_crawled"]` in `crawl_source`.  The
homepage entry carries a `links_on_page` count; followed sub-pages
do not. -/
structure PageEntry where
  url : String
  title : String
  text_preview : String
  links_on_page : Option Nat
deriving DecidableEq, Repr

/-- One entry of `results["errors"]` in `crawl_source`. -/
structure CrawlErr where
  url : String
  error : String
deriving DecidableEq, Repr

/-- The pieces of `server.py` that call external libraries.
`fetch` models `_fetch_page` (httpx GET with redirects plus
`raise_for_status`; `.ok (html, final_url)` on success, `.error msg`
for transport failures and non-2xx statuses); `findAnchors` models
BeautifulSoup's `find_all("a", href=True)`; `urljoin`, `netloc`,
`scheme` and `pathExt` model the `urllib.parse` operations used by
the server (`pathExt` is `parsed.path.lower().split(".")[-1]` when the
path contains a dot, else `""`); `extractText` models `_extract_text`
(BeautifulSoup based). -/
structure CrawlEnv where
  fetch : String → Except String (String × String)
  findAnchors : String → List Anchor
  urljoin : String → String → String
  netloc : String → String
  scheme : String → String
  pathExt : String → String
  extractText : String → String

/-- Boolean prefix test on character lists (first argument is the
candidate prefix). -/
def listIsPrefix : List Char → List Char → Bool
  | [], _ => true
  | _ :: _, [] => false
  | a :: as, b :: bs => a == b && listIsPrefix as bs

/-- Boolean infix test on character lists: does `pat` occur inside `s`?
Models Python's `pat in s` (an empty pattern occurs everywhere). -/
def listHasInfix (s pat : List Char) : Bool :=
  match s with
  | [] => pat == []
  | _ :: rest => listIsPrefix pat s || listHasInfix rest pat

/-- Python's `s.startswith(pre)`. -/
def pyStartsWith (s pre : String) : Bool :=
  listIsPrefix pre.data s.data

/-- Python's `s.lower()` (ASCII case mapping, which covers the URLs and
keywords involved). -/
def pyLower (s : String) : String :=
  ⟨s.data.map Char.toLower⟩

/-- Python's `s.strip()` with the default whitespace set. -/
def pyTrim (s : String) : String :=
  ⟨((s.data.dropWhile Char.isWhitespace).reverse.dropWhile
      Char.isWhitespace).reverse⟩

/-- Python's `s[:n]` slicing on strings, counting code points. -/
def pyTake (s : String) (n : Nat) : String :=
  ⟨s.data.take n⟩

/-- Decimal digit accumulator for `pyToInt`. -/
def parseDigitsAux : List Char → Nat → Option Nat
  | [], acc => some acc
  | c :: cs, acc =>
    if c.isDigit then parseDigitsAux cs (10 * acc + (c.toNat - 48)) else none

/-- A non-empty all-digit character list, as a number. -/
def parseUnsigned : List Char → Option Nat
  | [] => none
  | ds => parseDigitsAux ds 0

/-- Python's `int(s)` on strings: surrounding whitespace tolerated,
optional sign, decimal digits (digit-group underscores are not
modelled); `none` where Python raises `ValueError`. -/
def pyToInt (s : String) : Option Int :=
  match (pyTrim s).data with
  | '+' :: ds => (parseUnsigned ds).map (fun n => (n : Int))
  | '-' :: ds => (parseUnsigned ds).map (fun n => -(n : Int))
  | ds => (parseUnsigned ds).map (fun n => (n : Int))

/-- The skip test of `_extract_links` (server.py line 191), applied to the
stripped `href`: empty, fragment-only, `javascript:` or `mailto:`. -/
def skipHref (href : String) : Bool :=
  href == "" || pyStartsWith href "#" || pyStartsWith href "javascript:"
    || pyStartsWith href "mailto:"

/-- The loop of `_extract_links` (server.py lines 189-203), carrying the
`seen` set of already-emitted absolute URLs. -/
def extractLinksAux (env : CrawlEnv) (base : String) :
    List Anchor → List String → List Link
  | [], _ => []
  | a :: rest, seen =>
    let href := pyTrim a.href
    if skipHref href then
      extractLinksAux env base rest seen
    else
      let absUrl := env.urljoin base href
      if absUrl ∈ seen then
        extractLinksAux env base rest seen
      else
        { url := absUrl, text := pyTake a.text 200 }
          :: extractLinksAux env base rest (absUrl :: seen)

/-- `_extract_links(html, base_url)` (server.py lines 183-205). -/
def _extract_links (env : CrawlEnv) (html base_url : String) : List Link :=
  extractLinksAux env base_url (env.findAnchors html) []

/-- An anchor that `_extract_links` does not skip: its stripped `href`
is non-empty and is not fragment-only, `javascript:` or `mailto:`. -/
def goodAnchor (a : Anchor) : Bool :=
  !(skipHref (pyTrim a.href))

/-- The absolute URL an anchor resolves to:
`urljoin(base_url, href.strip())`. -/
def resolveAnchor (env : CrawlEnv) (base : String) (a : Anchor) : String :=
  env.urljoin base (pyTrim a.href)

/-- Substring occurrence test, modelling Python's `pat in s`. -/
def strContains (s pat : String) : Bool :=
  listHasInfix s.data pat.data

/-- The keyword list of `_looks_interesting` (server.py lines 216-225). -/
def interestKeywords : List String :=
  ["syllabus", "homework", "assignment", "hw", "problem set", "pset",
   "exam", "midterm", "final", "quiz", "test",
   "office hour", "oh", "schedule", "calendar",
   "grade", "grading", "policy", "policies",
   "lecture", "slide", "note", "reading",
   "lab", "project", "recitation", "section",
   "ta", "staff", "instructor", "professor",
   ".pdf", ".docx", ".doc"]

/-- `_looks_interesting(url, link_text)` (server.py lines 213-226). -/
def _looks_interesting (url link_text : String) : Bool :=
  let combined := pyLower (url ++ " " ++ link_text)
  interestKeywords.any (fun kw => strContains combined kw)

/-- `_is_same_site(url1, url2)` (server.py lines 208-210). -/
def _is_same_site (env : CrawlEnv) (url1 url2 : String) : Bool :=
  env.netloc url1 == env.netloc url2

/-- The binary/media extension deny-list of `crawl_source`
(server.py line 363). -/
def denyExts : List String :=
  ["zip", "tar", "gz", "mp4", "mov", "avi", "mp3", "wav"]

/-- Mutable crawl state threaded through the follow loop.  `pages` and
`errors` are the lists built up in `results`; `fetches` and `successes`
instrument the number of `_fetch_page` invocations and the number that
returned without raising (they count calls, they are not data the Python
code stores). -/
structure CrawlState where
  pages : List PageEntry
  errors : List CrawlErr
  fetches : Nat
  successes : Nat
deriving DecidableEq, Repr

/-- The sub-page follow loop of `crawl_source` (server.py lines 352-378):
stop once `followed >= max_subpages`; skip non-HTTP(S) schemes and
deny-listed extensions; a successful fetch appends a page entry and
increments `followed`; a failed fetch appends an error entry and leaves
`followed` unchanged. -/
def followLinks (env : CrawlEnv) (max_subpages : Int) :
    List Link → Int → CrawlState → CrawlState
  | [], _, st => st
  | link :: rest, followed, st =>
    if followed ≥ max_subpages then st
    else
      let sub_url := link.url
      if env.scheme sub_url ≠ "http" ∧ env.scheme sub_url ≠ "https" then
        followLinks env max_subpages rest followed st
      else if denyExts.contains (env.pathExt sub_url) then
        followLinks env max_subpages rest followed st
      else
        match env.fetch sub_url with
        | .ok (sub_html, sub_final_url) =>
          let sub_text := env.extractText sub_html
          let entry : PageEntry :=
            { url := sub_final_url
              title := if pyTake link.text 100 ≠ "" then pyTake link.text 100
                       else sub_final_url
              text_preview := pyTake sub_text 2000
              links_on_page := none }
          followLinks env max_subpages rest (followed + 1)
            { st with pages := st.pages ++ [entry]
                      fetches := st.fetches + 1
                      successes := st.successes + 1 }
        | .error e =>
          followLinks env max_subpages rest followed
            { st with errors := st.errors ++ [⟨sub_url, e⟩]
                      fetches := st.fetches + 1 }

/-- The structured result of `crawl_source`, with the two instrumentation
counters carried alongside. -/
structure CrawlResult where
  source_url : String
  pages_crawled : List PageEntry
  interesting_links_found : List Link
  errors : List CrawlErr
  fetches : Nat
  successes : Nat
deriving DecidableEq, Repr

/-- `crawl_source(url, max_subpages)` (server.py lines 314-388), after the
`_coerce_str` / `_coerce_int` input coercion of lines 316-317 (those
helpers are modelled separately below).  The seed fetch failure branch is
the outer `except` of lines 380-382; the candidate list is every
extracted link that `_looks_interesting` accepts or that shares the
seed's site (lines 341-347), reported capped at 30 (line 349). -/
def crawl_source (env : CrawlEnv) (url : String) (max_subpages : Int) :
    CrawlResult :=
  match env.fetch url with
  | .error e =>
    { source_url := url
      pages_crawled := []
      interesting_links_found := []
      errors := [⟨url, e⟩]
      fetches := 1
      successes := 0 }
  | .ok (html, final_url) =>
    let main_text := env.extractText html
    let all_links := _extract_links env html final_url
    let homepage : PageEntry :=
      { url := final_url
        title := "Homepage"
        text_preview := pyTake main_text 3000
        links_on_page := some all_links.length }
    let interesting := all_links.filter
      (fun link => _looks_interesting link.url link.text
        || _is_same_site env url link.url)
    let st := followLinks env max_subpages interesting 0
      { pages := [homepage], errors := [], fetches := 1, successes := 1 }
    { source_url := url
      pages_crawled := st.pages
      interesting_links_found := interesting.take 30
      errors := st.errors
      fetches := st.fetches
      successes := st.successes }

/-- A stored finding (`findings_cache.json` entries).  Python findings are
dicts; the keys the store logic touches are modelled individually
(`id`, `type`, `savedAt`, each possibly absent) and the rest of the dict
is abstracted as `payload` so that distinct versions of a finding can be
told apart. -/
structure Finding where
  id : Option String
  ftype : Option String
  savedAt : Option String
  payload : String
deriving DecidableEq, Repr

/-- An element of a submitted findings batch: either a JSON object
(a dict) or some non-object value, which `save_findings` drops. -/
inductive FindingItem where
  | obj (f : Finding)
  | nonObj
deriving DecidableEq, Repr

/-- A parsed findings argument after `json.loads` (or a value the bridge
delivered directly): a JSON array, a single JSON object, or anything
else (number, string, null, ...), which yields an empty batch. -/
inductive ParsedFindings where
  | list (items : List FindingItem)
  | obj (f : Finding)
  | other
deriving DecidableEq, Repr

/-- The raw `findings` argument of `save_findings`: a string (to be run
through `json.loads`) or an already-structured value. -/
inductive FindingsArg where
  | str (s : String)
  | val (v : ParsedFindings)

/-- The structured return value of `save_findings`. -/
structure SaveOutcome where
  error : Option String
  saved : Nat
  total : Option Nat
deriving DecidableEq, Repr

/-- The metadata stamp of `save_findings` (server.py lines 441-446):
every dict gets `savedAt := nowAt i`; a dict without an `id` gets the
synthesized id `f"{type}-{len(existing)+i}-{tstrAt i}"` where `i` is the
item's index in the submitted batch (non-dict items included) and
`type` defaults to `"unknown"`.  `nowAt` and `tstrAt` model the
per-iteration `datetime.now()` readings. -/
def stampItem (nExisting : Nat) (nowAt tstrAt : Nat → String) (i : Nat) :
    FindingItem → FindingItem
  | .obj f =>
    .obj { f with
      savedAt := some (nowAt i)
      id := some (f.id.getD
        ((f.ftype.getD "unknown") ++ "-" ++ toString (nExisting + i)
          ++ "-" ++ tstrAt i)) }
  | .nonObj => .nonObj

/-- Stamp every batch item, then keep only the dicts
(server.py lines 441-449). -/
def processItems (nExisting : Nat) (nowAt tstrAt : Nat → String)
    (items : List FindingItem) : List Finding :=
  (items.enum.map (fun p => stampItem nExisting nowAt tstrAt p.1 p.2)).filterMap
    (fun it => match it with | .obj f => some f | .nonObj => none)

/-- The merge of `save_findings` (server.py lines 451-454): drop existing
findings whose id occurs in the new batch, then append the new batch. -/
def mergeFindings (existing newFindings : List Finding) : List Finding :=
  existing.filter (fun f => f.id ∉ newFindings.map Finding.id) ++ newFindings

/-- `save_findings(findings)` (server.py lines 419-459), returning the
persisted findings collection together with the tool's response.
`jsonParse` models `json.loads` restricted to the shapes the store
distinguishes (`none` = raises `JSONDecodeError`/`ValueError`); a parse
failure returns the structured error without touching the store.  A
non-list value becomes a one-element batch when it is a dict and an
empty batch otherwise (lines 432-433). -/
def save_findings (jsonParse : String → Option ParsedFindings)
    (nowAt tstrAt : Nat → String) (store : List Finding)
    (arg : FindingsArg) : List Finding × SaveOutcome :=
  let parsed : Option ParsedFindings :=
    match arg with
    | .str s => jsonParse s
    | .val v => some v
  match parsed with
  | none =>
    (store, { error := some "findings must be a JSON array of objects"
              saved := 0, total := none })
  | some v =>
    let items : List FindingItem :=
      match v with
      | .list items => items
      | .obj f => [.obj f]
      | .other => []
    let newFindings := processItems store.length nowAt tstrAt items
    let merged := mergeFindings store newFindings
    (merged, { error := none, saved := newFindings.length
               total := some merged.length })

/-- A loosely-typed value as delivered by the MCP tool transport: the
Python value shapes `_coerce_str` / `_coerce_int` inspect.  Floats are
not modelled (the transport payloads here are strings, ints, dicts and
lists). -/
inductive PyVal where
  | pyStr (s : String)
  | pyInt (n : Int)
  | pyBool (b : Bool)
  | pyNone
  | pyDict (entries : List (String × PyVal))
  | pyList (xs : List PyVal)

/-- Python's `str(x)` for the modelled values.  It never raises; the
exact textual representation of containers is abbreviated (no claim
depends on it). -/
def pyStrOf : PyVal → String
  | .pyStr s => s
  | .pyInt n => toString n
  | .pyBool b => if b then "True" else "False"
  | .pyNone => "None"
  | .pyDict _ => "\x7b...\x7d"
  | .pyList _ => "[...]"

/-- Python's `int(x)` for the modelled values: `.ok` on success,
`.error` where Python raises `ValueError`/`TypeError`.  String parsing
models `int(s)`: surrounding whitespace tolerated, optional sign,
decimal digits (digit-group underscores are not modelled). -/
def pyIntOf : PyVal → Except String Int
  | .pyInt n => .ok n
  | .pyBool b => .ok (if b then 1 else 0)
  | .pyStr s =>
    match pyToInt s with
    | some n => .ok n
    | none => .error ("invalid literal for int() with base 10: " ++ s)
  | .pyNone => .error "int() argument must be a string or a number, not NoneType"
  | .pyDict _ => .error "int() argument must be a string or a number, not dict"
  | .pyList _ => .error "int() argument must be a string or a number, not list"

/-- `_coerce_str(val)` (server.py lines 104-115): unwrap a dict through
the first present key of `("url", "value", "text", "source_id")`, else
through its first value; otherwise `str(val)`. -/
def _coerce_str (val : PyVal) : String :=
  match val with
  | .pyDict entries =>
    match ["url", "value", "text", "source_id"].findSome?
        (fun k => (entries.lookup k).map pyStrOf) with
    | some s => s
    | none =>
      match entries with
      | [] => pyStrOf (.pyDict [])
      | (_, v) :: _ => pyStrOf v
  | v => pyStrOf v

/-- `_coerce_int(val, default)` (server.py lines 118-129).  The dict
branch converts the unwrapped value with `int(...)` OUTSIDE the
`try`/`except`, so its conversion errors propagate; only the final
`int(val)` on non-dict values is protected and falls back to `default`.
An empty dict reaches the protected `int(val)`, which raises
`TypeError` and yields `default`. -/
def _coerce_int (val : PyVal) (default : Int := 0) : Except String Int :=
  match val with
  | .pyDict entries =>
    match ["max_subpages", "max_subpages_per_source", "value"].findSome?
        (fun k => entries.lookup k) with
    | some v => pyIntOf v
    | none =>
      match entries with
      | [] => .ok default
      | (_, v) :: _ => pyIntOf v
  | v =>
    match pyIntOf v with
    | .ok n => .ok n
    | .error _ => .ok default

/-- A concrete environment for exercising the crawl loop: the seed `"s"`
fetches successfully and yields two same-site candidate anchors `"a"`
and `"b"`, both of whose fetches fail. -/
def probeEnv : CrawlEnv where
  fetch := fun u => if u = "s" then .ok ("h", "s") else .error "boom"
  findAnchors := fun _ => [⟨"a", ""⟩, ⟨"b", ""⟩]
  urljoin := fun _ href => href
  netloc := fun _ => "x"
  scheme := fun _ => "http"
  pathExt := fun _ => ""
  extractText := fun _ => ""

/-- A concrete environment whose every fetch fails with an HTTP 500
status error (as raised by `response.raise_for_status()`). -/
def failEnv : CrawlEnv where
  fetch := fun _ =>
    .error "500 Internal Server Error for url"
  findAnchors := fun _ => []
  urljoin := fun _ href => href
  netloc := fun _ => ""
  scheme := fun _ => "http"
  pathExt := fun _ => ""
  extractText := fun _ => ""

set_option maxRecDepth 40000

/-- The follow loop performs at most `(N - followed)⁺` additional
successful fetches: only the `followed += 1` branch increments
`successes`, and it is gated by `followed >= max_subpages`. -/
theorem followLinks_successes_le (env : CrawlEnv) (N : Int) :
    ∀ (links : List Link) (followed : Int) (st : CrawlState),
      (followLinks env N links followed st).successes
        ≤ st.successes + (N - followed).toNat := by
  intro links
  induction links with
  | nil =>
    intro followed st
    simp [followLinks]
  | cons link rest ih =>
    intro followed st
    simp only [followLinks]
    by_cases hb : followed ≥ N
    · simp only [if_pos hb]
      omega
    · simp only [if_neg hb]
      by_cases h1 : env.scheme link.url ≠ "http" ∧ env.scheme link.url ≠ "https"
      · simp only [if_pos h1]
        have h := ih followed st
        omega
      · simp only [if_neg h1]
        by_cases h2 : denyExts.contains (env.pathExt link.url)
        · simp only [if_pos h2]
          have h := ih followed st
          omega
        · simp only [if_neg h2]
          cases hf : env.fetch link.url with
          | ok p =>
            refine le_trans (ih (followed + 1) _) ?_
            show st.successes + 1 + (N - (followed + 1)).toNat
              ≤ st.successes + (N - followed).toNat
            omega
          | error e =>
            refine le_trans (ih followed _) ?_
            show st.successes + (N - followed).toNat
              ≤ st.successes + (N - followed).toNat
            exact le_refl _

/-- Every iteration of the follow loop that performs a fetch records it
either as a page (success) or as an error entry, so the invariant
`fetches = successes + |errors|` is preserved. -/
theorem followLinks_account (env : CrawlEnv) (N : Int) :
    ∀ (links : List Link) (st : CrawlState),
      st.fetches = st.successes + st.errors.length →
      ∀ followed : Int,
        (followLinks env N links followed st).fetches
          = (followLinks env N links followed st).successes
            + (followLinks env N links followed st).errors.length := by
  intro links
  induction links with
  | nil =>
    intro st h followed
    simpa [followLinks] using h
  | cons link rest ih =>
    intro st h followed
    simp only [followLinks]
    by_cases hb : followed ≥ N
    · simp only [if_pos hb]
      exact h
    · simp only [if_neg hb]
      by_cases h1 : env.scheme link.url ≠ "http" ∧ env.scheme link.url ≠ "https"
      · simp only [if_pos h1]
        exact ih st h followed
      · simp only [if_neg h1]
        by_cases h2 : denyExts.contains (env.pathExt link.url)
        · simp only [if_pos h2]
          exact ih st h followed
        · simp only [if_neg h2]
          cases hf : env.fetch link.url with
          | ok p =>
            refine ih _ ?_ (followed + 1)
            show st.fetches + 1 = st.successes + 1 + st.errors.length
            omega
          | error e =>
            refine ih _ ?_ followed
            show st.fetches + 1
              = st.successes + (st.errors ++ [(⟨link.url, e⟩ : CrawlErr)]).length
            simp only [List.length_append, List.length_singleton]
            omega

/-- Crawl-level successes bound: one successful seed fetch plus at most
`N` successful follows. -/
theorem crawl_source_successes_le (env : CrawlEnv) (url : String) (N : Int) :
    (crawl_source env url N).successes ≤ 1 + N.toNat := by
  unfold crawl_source
  cases hf : env.fetch url with
  | error e => simp
  | ok p =>
    obtain ⟨html, final_url⟩ := p
    refine le_trans (followLinks_successes_le env N _ _ _) ?_
    show 1 + (N - 0).toNat ≤ 1 + N.toNat
    omega

/-- C1: for every environment, seed URL and nonnegative budget `N`,
`crawl_source` performs at most `1 + N` successful fetches no matter how
many candidate links are discovered; and a sub-page follow whose fetch
fails consumes no budget slot — the failure is appended to the `errors`
sequence, `fetches` is incremented, and the loop continues with the
remaining candidates at an unchanged `followed` count. -/
theorem crawl_source_budget_successes (env : CrawlEnv) (url : String)
    (N : Int) (link : Link) (rest : List Link) (followed : Int)
    (st : CrawlState) (e : String) (hN : 0 ≤ N) (hb : ¬ followed ≥ N)
    (hs : ¬ (env.scheme link.url ≠ "http" ∧ env.scheme link.url ≠ "https"))
    (hx : ¬ denyExts.contains (env.pathExt link.url))
    (hf : env.fetch link.url = .error e) :
    ((crawl_source env url N).successes : Int) ≤ 1 + N ∧
    followLinks env N (link :: rest) followed st
      = followLinks env N rest followed
          { st with errors := st.errors ++ [⟨link.url, e⟩]
                    fetches := st.fetches + 1 } := by
  constructor
  · have h := crawl_source_successes_le env url N
    omega
  · simp only [followLinks, if_neg hb, if_neg hs, if_neg hx, hf]

/-- Witness for `crawl_source_budget_successes`: probe environment, seed
`"s"`, budget 1, failing candidate `"a"`. -/
theorem crawl_source_budget_successes_witness :
    ((0 : Int) ≤ 1 ∧ ¬ (0 : Int) ≥ 1
      ∧ ¬ (probeEnv.scheme "a" ≠ "http" ∧ probeEnv.scheme "a" ≠ "https")
      ∧ ¬ denyExts.contains (probeEnv.pathExt "a")
      ∧ probeEnv.fetch "a" = .error "boom")
    ∧ (((crawl_source probeEnv "s" 1).successes : Int) ≤ 1 + 1
      ∧ followLinks probeEnv 1 [⟨"a", ""⟩] 0 ⟨[], [], 0, 0⟩
          = followLinks probeEnv 1 [] 0 ⟨[], [⟨"a", "boom"⟩], 1, 0⟩) :=
  ⟨⟨by decide, by decide, by decide, by decide, rfl⟩,
    crawl_source_budget_successes probeEnv "s" 1 ⟨"a", ""⟩ [] 0 ⟨[], [], 0, 0⟩
      "boom" (by decide) (by decide) (by decide) (by decide) rfl⟩

/-- C2 as stated is false: with budget 1, the probe crawl performs 3
network calls (seed plus two failing follows), exceeding
`1 + maxSubpages = 2` — failed follows do not consume budget. -/
theorem crawl_source_total_calls_cex :
    ¬ ((crawl_source probeEnv "s" 1).fetches ≤ 1 + 1) := by decide

/-- C2 amended: every fetch attempt of a `crawl_source` invocation is
recorded either as a success or as an `errors` entry, so the total
number of network calls equals successful fetches plus recorded errors
and is bounded by `1 + maxSubpages + |errors|` (not by
`1 + maxSubpages`). -/
theorem crawl_source_total_calls (env : CrawlEnv) (url : String) (N : Int)
    (hN : 0 ≤ N) :
    (crawl_source env url N).fetches
      = (crawl_source env url N).successes
        + (crawl_source env url N).errors.length
    ∧ ((crawl_source env url N).fetches : Int)
      ≤ 1 + N + (crawl_source env url N).errors.length := by
  have h1 : (crawl_source env url N).fetches
      = (crawl_source env url N).successes
        + (crawl_source env url N).errors.length := by
    unfold crawl_source
    cases hf : env.fetch url with
    | error e => simp
    | ok p =>
      obtain ⟨html, final_url⟩ := p
      exact followLinks_account env N _ _ rfl 0
  have h2 := crawl_source_successes_le env url N
  refine ⟨h1, ?_⟩
  omega

/-- Witness for `crawl_source_total_calls` at the probe environment. -/
theorem crawl_source_total_calls_witness :
    (0 : Int) ≤ 1
    ∧ ((crawl_source probeEnv "s" 1).fetches
        = (crawl_source probeEnv "s" 1).successes
          + (crawl_source probeEnv "s" 1).errors.length
      ∧ ((crawl_source probeEnv "s" 1).fetches : Int)
        ≤ 1 + 1 + (crawl_source probeEnv "s" 1).errors.length) :=
  ⟨by decide, crawl_source_total_calls probeEnv "s" 1 (by decide)⟩

/-- C6: for every seed URL whose fetch fails (transport failure or
non-2xx status after redirects), `crawl_source` returns normally with
exactly one `errors` entry naming that URL and an empty
`pages_crawled`. -/
theorem crawl_source_seed_failure (env : CrawlEnv) (url : String) (N : Int)
    (e : String) (hf : env.fetch url = .error e) :
    crawl_source env url N
      = { source_url := url, pages_crawled := []
          interesting_links_found := [], errors := [⟨url, e⟩]
          fetches := 1, successes := 0 } := by
  simp only [crawl_source, hf]

/-- Witness for `crawl_source_seed_failure`: an environment whose fetch
of the seed yields an HTTP 500 error. -/
theorem crawl_source_seed_failure_witness :
    failEnv.fetch "http://example.edu/course"
        = .error "500 Internal Server Error for url"
    ∧ crawl_source failEnv "http://example.edu/course" 10
      = { source_url := "http://example.edu/course", pages_crawled := []
          interesting_links_found := []
          errors := [⟨"http://example.edu/course",
            "500 Internal Server Error for url"⟩]
          fetches := 1, successes := 0 } :=
  ⟨rfl, crawl_source_seed_failure failEnv "http://example.edu/course" 10
    "500 Internal Server Error for url" rfl⟩

/-- C3: after `save_findings` on a submitted batch, the persisted
collection equals the previously stored findings whose id does not occur
among the submitted (metadata-stamped) findings — kept unchanged and in
their original order — followed by the submitted findings in submission
order, so a stored finding whose id occurs in the batch is replaced by
the batch's version. -/
theorem save_findings_merge_order (jsonParse : String → Option ParsedFindings)
    (nowAt tstrAt : Nat → String) (store : List Finding)
    (items : List FindingItem) :
    (save_findings jsonParse nowAt tstrAt store (.val (.list items))).1
      = store.filter
          (fun f => f.id
            ∉ (processItems store.length nowAt tstrAt items).map Finding.id)
        ++ processItems store.length nowAt tstrAt items :=
  rfl

/-- C7: a string argument that `json.loads` cannot parse makes
`save_findings` return the structured error object with `saved = 0`,
and the persisted collection is exactly what it was before the call. -/
theorem save_findings_parse_error (jsonParse : String → Option ParsedFindings)
    (nowAt tstrAt : Nat → String) (store : List Finding) (s : String)
    (hp : jsonParse s = none) :
    save_findings jsonParse nowAt tstrAt store (.str s)
      = (store, { error := some "findings must be a JSON array of objects"
                  saved := 0, total := none }) := by
  simp only [save_findings, hp]

/-- Witness for `save_findings_parse_error`: a parser that rejects the
input string, one prior stored finding. -/
theorem save_findings_parse_error_witness :
    (fun _ : String => (none : Option ParsedFindings)) "not json" = none
    ∧ save_findings (fun _ => none) (fun _ => "T") (fun _ => "000000")
        [⟨some "a", some "exam", some "S", "x"⟩] (.str "not json")
      = ([⟨some "a", some "exam", some "S", "x"⟩],
         { error := some "findings must be a JSON array of objects"
           saved := 0, total := none }) :=
  ⟨rfl, save_findings_parse_error (fun _ => none) (fun _ => "T")
    (fun _ => "000000") [⟨some "a", some "exam", some "S", "x"⟩]
    "not json" rfl⟩

/-- C10: a single JSON object argument is treated as a one-element
batch: the result is identical to submitting `[finding]`, the call
reports `saved = 1`, and the persisted collection is the upsert of the
stamped object (savedAt set; id synthesized when absent). -/
theorem save_findings_single_object
    (jsonParse : String → Option ParsedFindings)
    (nowAt tstrAt : Nat → String) (store : List Finding) (f : Finding) :
    save_findings jsonParse nowAt tstrAt store (.val (.obj f))
      = save_findings jsonParse nowAt tstrAt store (.val (.list [.obj f]))
    ∧ (save_findings jsonParse nowAt tstrAt store (.val (.obj f))).2.saved = 1
    ∧ (save_findings jsonParse nowAt tstrAt store (.val (.obj f))).1
      = store.filter
          (fun g => g.id
            ∉ [some (f.id.getD ((f.ftype.getD "unknown") ++ "-"
                ++ toString (store.length + 0) ++ "-" ++ tstrAt 0))])
        ++ [{ f with
              savedAt := some (nowAt 0)
              id := some (f.id.getD ((f.ftype.getD "unknown") ++ "-"
                ++ toString (store.length + 0) ++ "-" ++ tstrAt 0)) }] :=
  ⟨rfl, rfl, rfl⟩

/-- C4 as stated is false: a submitted batch that itself contains two
findings with the same explicit id is appended wholesale
(server.py line 454), leaving two stored findings with id `"a"`. -/
theorem save_findings_unique_id_cex :
    1 < ((save_findings (fun _ => none) (fun _ => "T") (fun _ => "000000")
        []
        (.val (.list
          [.obj ⟨some "a", some "homework", none, "v1"⟩,
           .obj ⟨some "a", some "homework", none, "v2"⟩]))).1.filter
      (fun f => f.id = some "a")).length := by decide

/-- C4 amended: after `save_findings`, the persisted collection has at
most one finding per id, provided the prior store had pairwise-distinct
ids and the stamped batch has pairwise-distinct ids. -/
theorem save_findings_unique_id (jsonParse : String → Option ParsedFindings)
    (nowAt tstrAt : Nat → String) (store : List Finding)
    (items : List FindingItem)
    (hstore : (store.map Finding.id).Nodup)
    (hnew : ((processItems store.length nowAt tstrAt items).map
        Finding.id).Nodup) :
    (((save_findings jsonParse nowAt tstrAt store
        (.val (.list items))).1).map Finding.id).Nodup := by
  show ((mergeFindings store
      (processItems store.length nowAt tstrAt items)).map Finding.id).Nodup
  unfold mergeFindings
  rw [List.map_append]
  refine List.Nodup.append ?_ hnew ?_
  · exact List.Nodup.sublist
      ((List.filter_sublist store).map Finding.id) hstore
  · intro a ha hb
    rw [List.mem_map] at ha
    obtain ⟨g, hg, rfl⟩ := ha
    rw [List.mem_filter] at hg
    exact absurd hb (by simpa using hg.2)

/-- Witness for `save_findings_unique_id`: distinct prior id `"a"`,
batch id `"b"`. -/
theorem save_findings_unique_id_witness :
    (([⟨some "a", some "exam", some "S", "x"⟩] : List Finding).map
        Finding.id).Nodup
    ∧ ((processItems 1 (fun _ => "T") (fun _ => "000000")
        [.obj ⟨some "b", some "exam", none, "y"⟩]).map Finding.id).Nodup
    ∧ (((save_findings (fun _ => none) (fun _ => "T") (fun _ => "000000")
        [⟨some "a", some "exam", some "S", "x"⟩]
        (.val (.list [.obj ⟨some "b", some "exam", none, "y"⟩]))).1).map
        Finding.id).Nodup :=
  ⟨by decide, by decide,
    save_findings_unique_id (fun _ => none) (fun _ => "T") (fun _ => "000000")
      [⟨some "a", some "exam", some "S", "x"⟩]
      [.obj ⟨some "b", some "exam", none, "y"⟩] (by decide) (by decide)⟩

/-- Stamping a one-object batch whose finding already has an id: only
`savedAt` changes, the id is kept. -/
theorem processItems_obj_withId (n : Nat) (nowAt tstrAt : Nat → String)
    (f : Finding) (i : String) (hid : f.id = some i) :
    processItems n nowAt tstrAt [.obj f]
      = [{ f with savedAt := some (nowAt 0), id := some i }] := by
  simp [processItems, stampItem, List.enum, List.enumFrom, hid]

/-- Merging a one-finding batch drops exactly the stored findings whose
id equals the new finding's id. -/
theorem mergeFindings_singleton (store : List Finding) (x : Finding) :
    mergeFindings store [x]
      = store.filter (fun g => g.id ≠ x.id) ++ [x] := by
  unfold mergeFindings
  congr 1
  refine List.filter_congr ?_
  intro g _
  simp

/-- Filtering for an id after filtering it away yields nothing. -/
theorem filter_ne_then_eq_nil (l : List Finding) (i : String) :
    (l.filter (fun g => g.id ≠ some i)).filter (fun g => g.id = some i)
      = [] := by
  rw [List.filter_filter]
  have h : ∀ g ∈ l,
      (decide (g.id = some i) && decide (g.id ≠ some i)) = false := by
    intro g _
    by_cases hgi : g.id = some i <;> simp [hgi]
  rw [List.filter_congr h, List.filter_false]

/-- C5: submitting the same finding (same explicit id `i`) to
`save_findings` twice leaves exactly one stored record with that id, the
record carries the `savedAt` of the second call, and the total stored
count after the second call equals the count after the first. -/
theorem save_findings_resubmit (jsonParse : String → Option ParsedFindings)
    (now1 now2 tstr1 tstr2 : Nat → String) (store : List Finding)
    (f : Finding) (i : String) (hid : f.id = some i) :
    (save_findings jsonParse now2 tstr2
        (save_findings jsonParse now1 tstr1 store
          (.val (.list [.obj f]))).1
        (.val (.list [.obj f]))).1.filter
      (fun g => g.id = some i)
      = [{ f with savedAt := some (now2 0), id := some i }]
    ∧ (save_findings jsonParse now2 tstr2
        (save_findings jsonParse now1 tstr1 store
          (.val (.list [.obj f]))).1
        (.val (.list [.obj f]))).1.length
      = (save_findings jsonParse now1 tstr1 store
          (.val (.list [.obj f]))).1.length := by
  have h1 : (save_findings jsonParse now1 tstr1 store
      (.val (.list [.obj f]))).1
      = store.filter (fun g => g.id ≠ some i)
        ++ [{ f with savedAt := some (now1 0), id := some i }] := by
    show mergeFindings store (processItems store.length now1 tstr1 [.obj f])
      = _
    rw [processItems_obj_withId store.length now1 tstr1 f i hid,
      mergeFindings_singleton]
  have h2 : (save_findings jsonParse now2 tstr2
      (save_findings jsonParse now1 tstr1 store
        (.val (.list [.obj f]))).1
      (.val (.list [.obj f]))).1
      = store.filter (fun g => g.id ≠ some i)
        ++ [{ f with savedAt := some (now2 0), id := some i }] := by
    show mergeFindings (save_findings jsonParse now1 tstr1 store
        (.val (.list [.obj f]))).1
      (processItems (save_findings jsonParse now1 tstr1 store
        (.val (.list [.obj f]))).1.length now2 tstr2 [.obj f]) = _
    rw [processItems_obj_withId _ now2 tstr2 f i hid,
      mergeFindings_singleton, h1, List.filter_append]
    have hx : ([{ f with savedAt := some (now1 0), id := some i }].filter
        (fun g => g.id
          ≠ ({ f with savedAt := some (now2 0), id := some i } :
              Finding).id)) = [] := by
      simp
    have hy : ((store.filter (fun g => g.id ≠ some i)).filter
        (fun g => g.id
          ≠ ({ f with savedAt := some (now2 0), id := some i } :
              Finding).id))
        = store.filter (fun g => g.id ≠ some i) := by
      rw [List.filter_filter]
      refine List.filter_congr ?_
      intro g _
      by_cases hgi : g.id = some i <;> simp [hgi]
    rw [hx, hy, List.append_nil]
  refine ⟨?_, ?_⟩
  · rw [h2, List.filter_append, filter_ne_then_eq_nil]
    simp
  · rw [h2, h1]
    simp

/-- Witness for `save_findings_resubmit`: the finding with explicit id
`"a"` saved twice into an initially empty store. -/
theorem save_findings_resubmit_witness :
    (⟨some "a", some "exam", none, "x"⟩ : Finding).id = some "a"
    ∧ ((save_findings (fun _ => none) (fun _ => "T2") (fun _ => "0")
        (save_findings (fun _ => none) (fun _ => "T1") (fun _ => "0") []
          (.val (.list [.obj ⟨some "a", some "exam", none, "x"⟩]))).1
        (.val (.list [.obj ⟨some "a", some "exam", none, "x"⟩]))).1.filter
      (fun g => g.id = some "a")
      = [⟨some "a", some "exam", some "T2", "x"⟩]
    ∧ (save_findings (fun _ => none) (fun _ => "T2") (fun _ => "0")
        (save_findings (fun _ => none) (fun _ => "T1") (fun _ => "0") []
          (.val (.list [.obj ⟨some "a", some "exam", none, "x"⟩]))).1
        (.val (.list [.obj ⟨some "a", some "exam", none, "x"⟩]))).1.length
      = (save_findings (fun _ => none) (fun _ => "T1") (fun _ => "0") []
          (.val (.list [.obj ⟨some "a", some "exam", none, "x"⟩]))).1.length) :=
  ⟨rfl, save_findings_resubmit (fun _ => none) (fun _ => "T1") (fun _ => "T2")
    (fun _ => "0") (fun _ => "0") [] ⟨some "a", some "exam", none, "x"⟩
    "a" rfl⟩

/-- `find?` on a cons whose head fails the predicate (stated with the
predicate explicit, for controlled rewriting). -/
theorem find_cons_of_false {α : Type} (p : α → Bool) (a : α) (l : List α)
    (h : p a = false) : (a :: l).find? p = l.find? p := by
  simp only [List.find?]
  rw [h]

/-- `find?` on a cons whose head passes the predicate. -/
theorem find_cons_of_true {α : Type} (p : α → Bool) (a : α) (l : List α)
    (h : p a = true) : (a :: l).find? p = some a := by
  simp only [List.find?]
  rw [h]

set_option maxHeartbeats 1600000

/-- Invariant of the `_extract_links` loop: no emitted link's URL is in
`seen`, the emitted URLs are pairwise distinct, and every emitted link
carries the data (anchor text truncated to 200 characters) of the FIRST
non-skipped anchor resolving to its URL. -/
theorem extractLinksAux_spec (env : CrawlEnv) (base : String) :
    ∀ (anchors : List Anchor) (seen : List String),
      (∀ l ∈ extractLinksAux env base anchors seen, l.url ∉ seen)
      ∧ ((extractLinksAux env base anchors seen).map Link.url).Nodup
      ∧ (∀ l ∈ extractLinksAux env base anchors seen,
          ∃ a, (anchors.filter goodAnchor).find?
              (fun a => resolveAnchor env base a == l.url) = some a
            ∧ l.url = resolveAnchor env base a
            ∧ l.text = pyTake a.text 200) := by
  intro anchors
  induction anchors with
  | nil =>
    intro seen
    refine ⟨?_, ?_, ?_⟩ <;> simp [extractLinksAux]
  | cons a rest ih =>
    intro seen
    by_cases hg : skipHref (pyTrim a.href)
    · have hunf : extractLinksAux env base (a :: rest) seen
          = extractLinksAux env base rest seen := by
        simp only [extractLinksAux, if_pos hg]
      have hfilt : (a :: rest).filter goodAnchor = rest.filter goodAnchor := by
        simp [goodAnchor, hg]
      rw [hunf, hfilt]
      exact ih seen
    · by_cases hs : env.urljoin base (pyTrim a.href) ∈ seen
      · have hunf : extractLinksAux env base (a :: rest) seen
            = extractLinksAux env base rest seen := by
          simp only [extractLinksAux, if_neg hg, if_pos hs]
        have hfilt : (a :: rest).filter goodAnchor
            = a :: rest.filter goodAnchor := by
          simp [goodAnchor, hg]
        obtain ⟨ih1, ih2, ih3⟩ := ih seen
        rw [hunf, hfilt]
        refine ⟨ih1, ih2, ?_⟩
        intro l hl
        obtain ⟨a', hfind, hurl, htext⟩ := ih3 l hl
        have hne : ¬ (resolveAnchor env base a == l.url) = true := by
          intro hbeq
          have heq : resolveAnchor env base a = l.url := by simpa using hbeq
          have hmem : l.url ∈ seen := by
            rw [← heq]
            exact hs
          exact ih1 l hl hmem
        refine ⟨a', ?_, hurl, htext⟩
        rw [find_cons_of_false (fun x => resolveAnchor env base x == l.url) a
          (rest.filter goodAnchor) (by simpa using hne)]
        exact hfind
      · have hunf : extractLinksAux env base (a :: rest) seen
            = { url := env.urljoin base (pyTrim a.href)
                text := pyTake a.text 200 }
              :: extractLinksAux env base rest
                  (env.urljoin base (pyTrim a.href) :: seen) := by
          simp only [extractLinksAux, if_neg hg, if_neg hs]
        have hfilt : (a :: rest).filter goodAnchor
            = a :: rest.filter goodAnchor := by
          simp [goodAnchor, hg]
        obtain ⟨ih1, ih2, ih3⟩ :=
          ih (env.urljoin base (pyTrim a.href) :: seen)
        rw [hunf, hfilt]
        refine ⟨?_, ?_, ?_⟩
        · intro l hl
          rcases List.mem_cons.mp hl with rfl | hmem
          · exact hs
          · intro hcontra
            exact ih1 l hmem (List.mem_cons_of_mem _ hcontra)
        · simp only [List.map_cons]
          rw [List.nodup_cons]
          refine ⟨?_, ih2⟩
          intro hmem
          rw [List.mem_map] at hmem
          obtain ⟨l, hl, heq⟩ := hmem
          refine ih1 l hl ?_
          rw [heq]
          exact List.mem_cons_self _ _
        · intro l hl
          rcases List.mem_cons.mp hl with rfl | hmem
          · refine ⟨a, ?_, rfl, rfl⟩
            exact find_cons_of_true _ a (rest.filter goodAnchor)
              (by simp [resolveAnchor])
          · obtain ⟨a', hfind, hurl, htext⟩ := ih3 l hmem
            have hne : ¬ (resolveAnchor env base a == l.url) = true := by
              intro hbeq
              have heq : resolveAnchor env base a = l.url := by simpa using hbeq
              have hmem2 : l.url
                  ∈ env.urljoin base (pyTrim a.href) :: seen := by
                rw [← heq]
                exact List.mem_cons_self _ _
              exact ih1 l hmem hmem2
            refine ⟨a', ?_, hurl, htext⟩
            rw [find_cons_of_false (fun x => resolveAnchor env base x == l.url)
              a (rest.filter goodAnchor) (by simpa using hne)]
            exact hfind

/-- C8: `_extract_links` only emits links resolved from non-skipped
anchors (empty, fragment-only, `javascript:` and `mailto:` hrefs are
excluded), its output URLs are pairwise distinct, and each emitted link
carries the anchor text (truncated to 200 characters) of the first
non-skipped anchor resolving to that absolute URL. -/
theorem extract_links_dedup_first (env : CrawlEnv) (html base_url : String) :
    ((_extract_links env html base_url).map Link.url).Nodup
    ∧ ∀ l ∈ _extract_links env html base_url,
        ∃ a, ((env.findAnchors html).filter goodAnchor).find?
            (fun a => resolveAnchor env base_url a == l.url) = some a
          ∧ l.url = resolveAnchor env base_url a
          ∧ l.text = pyTake a.text 200 := by
  obtain ⟨h1, h2, h3⟩ :=
    extractLinksAux_spec env base_url (env.findAnchors html) []
  exact ⟨h2, h3⟩

/-- C9 as stated is false: a count wrapped in a dict whose value is a
non-numeric string makes `_coerce_int` raise `ValueError` — the dict
branch converts with `int(...)` outside the `try`/`except`
(server.py lines 120-125), so the error propagates instead of the
default being returned. -/
theorem coerce_int_dict_raises_cex :
    _coerce_int (.pyDict [("value", .pyStr "ten")]) 0
      = .error "invalid literal for int() with base 10: ten" := rfl

/-- C9 amended: `_coerce_str` always returns a string, unwrapping a
dict-wrapped URL through its `url` key, and `_coerce_int` never raises
on any non-dict input (numeric values and numeric strings are unwrapped,
anything else falls back to the default); only a dict input wrapping a
value that `int()` cannot convert makes `_coerce_int` propagate the
conversion error. -/
theorem coerce_helpers_defensive (v : PyVal) (d : Int) (u : String)
    (rest : List (String × PyVal)) (h : ∀ e, v ≠ PyVal.pyDict e) :
    (∃ n, _coerce_int v d = .ok n)
    ∧ _coerce_str (.pyDict (("url", .pyStr u) :: rest)) = u := by
  constructor
  · cases v with
    | pyDict entries => exact absurd rfl (h entries)
    | pyStr s =>
      cases hi : pyIntOf (.pyStr s) with
      | ok n => exact ⟨n, by simp [_coerce_int, hi]⟩
      | error msg => exact ⟨d, by simp [_coerce_int, hi]⟩
    | pyInt n => exact ⟨n, rfl⟩
    | pyBool b => exact ⟨if b then 1 else 0, rfl⟩
    | pyNone => exact ⟨d, rfl⟩
    | pyList xs => exact ⟨d, rfl⟩
  · rfl

/-- Witness for `coerce_helpers_defensive`: a count delivered as the
string `"7"` and a URL wrapped as `{"url": ...}`. -/
theorem coerce_helpers_defensive_witness :
    (∀ e, PyVal.pyStr "7" ≠ PyVal.pyDict e)
    ∧ ((∃ n, _coerce_int (.pyStr "7") 0 = .ok n)
      ∧ _coerce_str (.pyDict [("url", .pyStr "http://x")]) = "http://x") :=
  ⟨fun _ h => PyVal.noConfusion h,
    coerce_helpers_defensive (.pyStr "7") 0 "http://x" []
      (fun _ h => PyVal.noConfusion h)⟩
